import Mathlib

/-!
Verification of the log-group subscription reconciliation engine
(`src/forwarder.ts`) of the serverless-plugin-datadog repository.

The TypeScript source is shallowly embedded as pure Lean functions:

* the AWS client (`aws.request`, `aws.getStage`, `aws.naming.getStackName`)
  becomes an explicit environment record `AwsEnv` describing the outcome of
  each live call;
* the in-place mutation of `service.provider.compiledCloudFormationTemplate
  .Resources` becomes explicit state threading of an insertion-ordered
  association list through the per-entry loop (JavaScript objects preserve
  insertion order for string keys, and `Object.entries` snapshots the entry
  list before the loop runs);
* the thrown `DatadogForwarderNotFoundError` becomes `Except`.
-/

namespace Forwarder

/-- Source: `const logGroupKey = "AWS::Logs::LogGroup"` -/
def logGroupKey : String := "AWS::Logs::LogGroup"

/-- Source: `const logGroupSubscriptionKey = "AWS::Logs::SubscriptionFilter"` -/
def logGroupSubscriptionKey : String := "AWS::Logs::SubscriptionFilter"

/-- Source: `const maxAllowableLogGroupSubscriptions: number = 2` -/
def maxAllowableLogGroupSubscriptions : Nat := 2

/-- Source: `class DatadogForwarderNotFoundError extends Error`.  Only the message is
observable to callers of this module (the constructor re-assigns
`this.message = message`, so the message is the full string passed in). -/
structure DatadogForwarderNotFoundError where
  message : String
  deriving DecidableEq, Repr

deriving instance DecidableEq for Except

/-- One record of the `subscriptionFilters` array of a
`DescribeSubscriptionFiltersResponse` (interface in the source). -/
structure SubscriptionFilterRecord where
  creationTime : Nat
  destinationArn : String
  distribution : String
  filterName : String
  filterPattern : String
  logGroupName : String
  roleArn : String
  deriving DecidableEq, Repr

/-- Source: `interface DescribeSubscriptionFiltersResponse` -/
structure DescribeSubscriptionFiltersResponse where
  subscriptionFilters : List SubscriptionFilterRecord
  deriving DecidableEq, Repr

/-- Source: `interface CloudFormationObjectArn`: the forwarder ARN when the user
defines it with CloudFormation functions.  The two optional fields are named
`Fn::Sub` and `arn:aws` in the source; neither is ever read by this module. -/
structure CloudFormationObjectArn where
  fnSub : Option String
  arnAws : Option String
  deriving DecidableEq, Repr

/-- The `functionArn` parameter: `CloudFormationObjectArn | string`.
`typeof functionArn === "string"` distinguishes the two variants. -/
inductive FunctionArn where
  | literal (arn : String)
  | expression (obj : CloudFormationObjectArn)
  deriving DecidableEq, Repr

/-- How a `FunctionArn` renders inside a JavaScript template literal
(`\x60...${functionArn}...\x60`): a string renders as itself, a plain object
renders as "[object Object]". -/
def functionArnToString : FunctionArn → String
  | .literal arn => arn
  | .expression _ => "[object Object]"

/-- A value of the `Resources` map of the compiled CloudFormation template.
The source inspects only the `Type` tag (`isLogGroup`) and, for log groups,
`Properties.LogGroupName`; subscription filters are the resources this module
writes; everything else is opaque.  Following the spec's closed tagged-union
reading, the `Type` tag is determined by the constructor. -/
inductive Resource where
  /-- Tag `Type: "AWS::Logs::LogGroup"`, `Properties.LogGroupName`. -/
  | logGroup (logGroupName : String)
  /-- Tag `Type: "AWS::Logs::SubscriptionFilter"` with
  `Properties = {DestinationArn, FilterPattern, LogGroupName: {Ref: ref}}`. -/
  | subscriptionFilter (destinationArn : FunctionArn) (filterPattern : String)
      (logGroupRef : String)
  /-- any other resource, carrying its `Type` tag. -/
  | other (resourceType : String)
  deriving DecidableEq, Repr

/-- JavaScript `String.prototype.startsWith`, phrased over the character
sequences of the two strings. -/
def strStartsWith (s pre : String) : Bool :=
  pre.data.isPrefixOf s.data

/-- Source: `function isLogGroup(value): value is LogGroupResource`
(`value.Type === logGroupKey`). -/
def isLogGroup : Resource → Bool
  | .logGroup _ => true
  | _ => false

/-- The `Resources` section of the compiled template: a JavaScript object,
i.e. an insertion-ordered map from resource name to resource with unique
keys.  Embedded as an association list in insertion order. -/
abbrev Resources : Type := List (String × Resource)

/-- JavaScript property read `resources[k]`: the value at key `k`
(keys are unique in a JavaScript object, so first match). -/
def getResource : Resources → String → Option Resource
  | [], _ => none
  | (k', v') :: rest, k => if k' = k then some v' else getResource rest k

/-- JavaScript property write `resources[k] = v`: replace the value at an
existing key in place (keeping its position in insertion order), otherwise
append the new key at the end. -/
def setResource : Resources → String → Resource → Resources
  | [], k, v => [(k, v)]
  | (k', v') :: rest, k, v =>
    if k' = k then (k, v) :: rest else (k', v') :: setResource rest k v

/-- The environment the module observes through the Serverless `Aws` client:
the outcome of each live request, the deployment stage and the stack name.
`getFunctionOk fa = true` means `aws.request("Lambda", "getFunction",
{FunctionName: fa})` succeeds; `describeSubscriptionFiltersRequest g = none`
means `aws.request("CloudWatchLogs", "describeSubscriptionFilters",
{logGroupName: g})` throws.  `stackName = none` models
`aws.naming.getStackName()` returning `undefined`. -/
structure AwsEnv where
  getFunctionOk : FunctionArn → Bool
  describeSubscriptionFiltersRequest : String → Option DescribeSubscriptionFiltersResponse
  stage : String
  stackName : Option String

/-- Observation `service.getServiceName()` is the only observation of the `Service`
object made by this module. -/
structure Service where
  serviceName : String

/-- Truthiness of `aws.naming.getStackName()` as tested by `if (stackName)`:
`undefined` and the empty string are falsy. -/
def stackNameAvailable (aws : AwsEnv) : Bool :=
  match aws.stackName with
  | some s => s ≠ ""
  | none => false

/-- Source `validateForwarderArn`: try `getFunction`; on failure throw
`DatadogForwarderNotFoundError` with the interpolated message. -/
def validateForwarderArn (aws : AwsEnv) (functionArn : FunctionArn) :
    Except DatadogForwarderNotFoundError Unit :=
  if aws.getFunctionOk functionArn then
    .ok ()
  else
    .error ⟨"Could not perform GetFunction on " ++ functionArnToString functionArn ++ "."⟩

/-- Source `describeSubscriptionFilters`: return `result.subscriptionFilters`, and
on any error (e.g. the log group does not exist) swallow it and return the
empty list. -/
def describeSubscriptionFilters (aws : AwsEnv) (logGroupName : String) :
    List SubscriptionFilterRecord :=
  match aws.describeSubscriptionFiltersRequest logGroupName with
  | some result => result.subscriptionFilters
  | none => []

/-- Source `canSubscribeLogGroup`: list the live filters, set
`foundDatadogSubscriptionFilter` by scanning for a `filterName` starting with
`expectedSubName`, and refuse only when nothing matched and the count is at
least `maxAllowableLogGroupSubscriptions`. -/
def canSubscribeLogGroup (aws : AwsEnv) (logGroupName expectedSubName : String) : Bool :=
  let subscriptionFilters := describeSubscriptionFilters aws logGroupName
  let numberOfActiveSubscriptionFilters := subscriptionFilters.length
  let foundDatadogSubscriptionFilter :=
    subscriptionFilters.foldl
      (fun found subscription =>
        if strStartsWith subscription.filterName expectedSubName then true else found)
      false
  if !foundDatadogSubscriptionFilter &&
      numberOfActiveSubscriptionFilters ≥ maxAllowableLogGroupSubscriptions then
    false
  else
    true

/-- The expected-subscription-name computation of the per-entry loop body:
`${serviceName}-${stage}-${name}Subscription-`, overwritten with
`${stackName}-${name}Subscription-` when `aws.naming.getStackName()` is
truthy. -/
def getExpectedSubName (service : Service) (aws : AwsEnv) (name : String) : String :=
  let scopedSubName := name ++ "Subscription"
  let fallback := service.serviceName ++ "-" ++ aws.stage ++ "-" ++ scopedSubName ++ "-"
  match aws.stackName with
  | some stackName => if stackName ≠ "" then stackName ++ "-" ++ scopedSubName ++ "-" else fallback
  | none => fallback

/-- The warning pushed when `canSubscribeLogGroup` refuses a log group. -/
def subscribeErrorMsg (logGroupName : String) : String :=
  "Could not subscribe Datadog Forwarder due to too many existing subscription filter(s) for "
    ++ logGroupName ++ "."

/-- The warning pushed when the forwarder ARN is a CloudFormation object. -/
def skipValidationMsg : String :=
  "Skipping forwarder ARN validation because forwarder string defined with CloudFormation function."

/-- The single result returned when the template has no `Resources`. -/
def noStackMsg : String :=
  "No cloudformation stack available. Skipping subscribing Datadog forwarder."

/-- The subscription resource written for the log-group resource named
`name`: `{Type: logGroupSubscriptionKey, Properties: {DestinationArn:
functionArn, FilterPattern: "", LogGroupName: {Ref: name}}}`. -/
def subscriptionFor (functionArn : FunctionArn) (name : String) : Resource :=
  .subscriptionFilter functionArn "" name

/-- One iteration of the `for (const [name, resource] of
Object.entries(resources))` loop, acting on the current template state and
accumulated errors.  Non-log-groups and log groups whose name does not start
with "/aws/lambda/" are skipped; a refused log group appends one warning; an
admitted one writes `resources[name ++ "Subscription"]`. -/
def processEntry (service : Service) (aws : AwsEnv) (functionArn : FunctionArn)
    (acc : Resources × List String) (entry : String × Resource) :
    Resources × List String :=
  match entry.2 with
  | .logGroup logGroupName =>
    if strStartsWith logGroupName "/aws/lambda/" then
      let scopedSubName := entry.1 ++ "Subscription"
      let expectedSubName := getExpectedSubName service aws entry.1
      if canSubscribeLogGroup aws logGroupName expectedSubName then
        (setResource acc.1 scopedSubName (subscriptionFor functionArn entry.1), acc.2)
      else
        (acc.1, acc.2 ++ [subscribeErrorMsg logGroupName])
    else
      acc
  | _ => acc

/-- The whole per-entry loop: fold `processEntry` over the snapshot that
`Object.entries(resources)` took before the loop started, threading the
mutable template state and the `errors` array. -/
def runLoop (service : Service) (aws : AwsEnv) (functionArn : FunctionArn) :
    List (String × Resource) → Resources × List String → Resources × List String
  | [], acc => acc
  | entry :: rest, acc =>
    runLoop service aws functionArn rest (processEntry service aws functionArn acc entry)

/-- Source `addCloudWatchForwarderSubscriptions`.  The template's `Resources`
section is passed explicitly (`none` models
`service.provider.compiledCloudFormationTemplate?.Resources === undefined`);
on success the first component is the final state of that section and the
second is the returned `errors` array. -/
def addCloudWatchForwarderSubscriptions (service : Service) (aws : AwsEnv)
    (functionArn : FunctionArn) (resources : Option Resources) :
    Except DatadogForwarderNotFoundError (Option Resources × List String) :=
  match resources with
  | none => .ok (none, [noStackMsg])
  | some rs =>
    let initialErrors : Except DatadogForwarderNotFoundError (List String) :=
      match functionArn with
      | .expression _ => .ok [skipValidationMsg]
      | .literal _ =>
        match validateForwarderArn aws functionArn with
        | .ok _ => .ok []
        | .error e => .error e
    match initialErrors with
    | .error e => .error e
    | .ok errors =>
      let out := runLoop service aws functionArn rs (rs, errors)
      .ok (some out.1, out.2)

/-! Derived views of the loop, used to state and prove the properties. -/

/-- The warning (if any) that one loop iteration appends for one entry of the
snapshot: refused lambda log groups yield their quota warning, everything
else yields nothing. -/
def entryWarning (service : Service) (aws : AwsEnv) (entry : String × Resource) :
    Option String :=
  match entry.2 with
  | .logGroup logGroupName =>
    if strStartsWith logGroupName "/aws/lambda/" then
      if canSubscribeLogGroup aws logGroupName (getExpectedSubName service aws entry.1) then
        none
      else
        some (subscribeErrorMsg logGroupName)
    else
      none
  | _ => none

/-- All warnings the loop appends, in snapshot order. -/
def loopWarnings (service : Service) (aws : AwsEnv)
    (snap : List (String × Resource)) : List String :=
  snap.filterMap (entryWarning service aws)

/-- The resource-name keys of a template section are unique: true of any
JavaScript object, an invariant of the association-list embedding. -/
def nodupKeys (rs : Resources) : Prop := (rs.map Prod.fst).Nodup

instance (rs : Resources) : Decidable (nodupKeys rs) :=
  inferInstanceAs (Decidable (rs.map Prod.fst).Nodup)

/-! Concrete sample inputs, used to evaluate the theorems on closed terms. -/

/-- Sample live state: `/aws/lambda/x` already carries two unrelated
subscription filters, every other log group carries none. -/
def wFilters (g : String) : Option DescribeSubscriptionFiltersResponse :=
  if g = "/aws/lambda/x" then
    some ⟨[⟨0, "dest", "ByLogStream", "other1", "", g, "role"⟩,
           ⟨0, "dest", "ByLogStream", "other2", "", g, "role"⟩]⟩
  else
    some ⟨[]⟩

/-- Sample environment: every getFunction lookup succeeds. -/
def wAws : AwsEnv := ⟨fun _ => true, wFilters, "dev", none⟩

/-- Sample environment: every getFunction lookup fails. -/
def wAwsFail : AwsEnv := ⟨fun _ => false, wFilters, "dev", none⟩

/-- Sample environment: every subscription-filter listing throws. -/
def wAwsNone : AwsEnv := ⟨fun _ => true, fun _ => none, "dev", none⟩

def wService : Service := ⟨"my-service"⟩

/-- Sample template section: log group `A` is at quota, `B` is free. -/
def wRes : Resources := [("A", .logGroup "/aws/lambda/x"), ("B", .logGroup "/aws/lambda/y")]

/-- Sample template section where the derived key `BSubscription` is already
taken by an unrelated resource. -/
def wResOver : Resources :=
  [("B", .logGroup "/aws/lambda/y"), ("BSubscription", .other "AWS::S3::Bucket")]

/-! Lemmas about the association-list reads and writes. -/

theorem getResource_setResource_self (rs : Resources) (k : String) (v : Resource) :
    getResource (setResource rs k v) k = some v := by
  induction rs with
  | nil => simp [setResource, getResource]
  | cons p rest ih =>
    obtain ⟨k', v'⟩ := p
    by_cases h : k' = k
    · simp [setResource, getResource, h]
    · simp [setResource, getResource, h, ih]

theorem getResource_setResource_ne (rs : Resources) {k k' : String} (v' : Resource)
    (h : k' ≠ k) : getResource (setResource rs k' v') k = getResource rs k := by
  induction rs with
  | nil => simp [setResource, getResource, h]
  | cons p rest ih =>
    obtain ⟨k₁, v₁⟩ := p
    by_cases h1 : k₁ = k'
    · subst h1
      simp [setResource, getResource, h]
    · simp only [setResource, if_neg h1, getResource]
      by_cases h2 : k₁ = k
      · simp [h2]
      · simp [h2, ih]

theorem setResource_eq_of_getResource {rs : Resources} {k : String} {v : Resource}
    (h : getResource rs k = some v) : setResource rs k v = rs := by
  induction rs with
  | nil => simp [getResource] at h
  | cons p rest ih =>
    obtain ⟨k', v'⟩ := p
    by_cases h1 : k' = k
    · subst h1
      have h2 : v' = v := by simpa [getResource] using h
      subst h2
      simp [setResource]
    · simp only [getResource, if_neg h1] at h
      simp [setResource, h1, ih h]

theorem mem_of_mem_setResource {rs : Resources} {k' : String} {v' : Resource}
    {p : String × Resource} (h : p ∈ setResource rs k' v') : p ∈ rs ∨ p = (k', v') := by
  induction rs with
  | nil =>
    simp [setResource] at h
    exact Or.inr h
  | cons q rest ih =>
    obtain ⟨k₁, v₁⟩ := q
    by_cases h1 : k₁ = k'
    · simp only [setResource, if_pos h1] at h
      rcases List.mem_cons.mp h with h2 | h2
      · exact Or.inr h2
      · exact Or.inl (List.mem_cons_of_mem _ h2)
    · simp only [setResource, if_neg h1] at h
      rcases List.mem_cons.mp h with h2 | h2
      · exact Or.inl (h2 ▸ List.mem_cons_self _ _)
      · rcases ih h2 with h3 | h3
        · exact Or.inl (List.mem_cons_of_mem _ h3)
        · exact Or.inr h3

theorem nodupKeys_setResource {rs : Resources} (k : String) (v : Resource)
    (h : nodupKeys rs) : nodupKeys (setResource rs k v) := by
  induction rs with
  | nil => simp [setResource, nodupKeys]
  | cons p rest ih =>
    obtain ⟨k', v'⟩ := p
    unfold nodupKeys at h
    simp only [List.map_cons, List.nodup_cons] at h
    by_cases h1 : k' = k
    · subst h1
      unfold nodupKeys
      simpa [setResource] using h
    · have hrest := ih h.2
      unfold nodupKeys
      simp only [setResource, if_neg h1, List.map_cons, List.nodup_cons]
      refine ⟨?_, hrest⟩
      intro hk
      rcases List.mem_map.mp hk with ⟨q, hq, hq1⟩
      rcases mem_of_mem_setResource hq with h2 | h2
      · exact h.1 (List.mem_map.mpr ⟨q, h2, hq1⟩)
      · subst h2
        exact h1 hq1.symm

theorem getResource_eq_of_mem {rs : Resources} (h : nodupKeys rs)
    {k : String} {v : Resource} (hm : (k, v) ∈ rs) : getResource rs k = some v := by
  induction rs with
  | nil => simp at hm
  | cons p rest ih =>
    obtain ⟨k', v'⟩ := p
    unfold nodupKeys at h
    simp only [List.map_cons, List.nodup_cons] at h
    rcases List.mem_cons.mp hm with h1 | h1
    · have hk : k = k' := congrArg Prod.fst h1
      have hv : v = v' := congrArg Prod.snd h1
      subst hk
      subst hv
      simp [getResource]
    · have hne : k' ≠ k := by
        intro he
        exact h.1 (List.mem_map.mpr ⟨(k, v), h1, by simp [he]⟩)
      simp [getResource, hne, ih h.2 h1]

/-! String lemmas: the derived resource names and warning messages are built
by concatenation, so distinct inputs give distinct names/messages. -/

theorem strAppend_right_inj {a b : String} (s : String) (h : a ++ s = b ++ s) :
    a = b := by
  have hd := congrArg String.data h
  rw [String.data_append, String.data_append] at hd
  exact String.ext (List.append_cancel_right hd)

theorem strAppend_left_inj {a b : String} (s : String) (h : s ++ a = s ++ b) :
    a = b := by
  have hd := congrArg String.data h
  rw [String.data_append, String.data_append] at hd
  exact String.ext (List.append_cancel_left hd)

theorem subscriptionName_inj {m n : String}
    (h : m ++ "Subscription" = n ++ "Subscription") : m = n :=
  strAppend_right_inj _ h

theorem subscribeErrorMsg_inj {g g' : String}
    (h : subscribeErrorMsg g = subscribeErrorMsg g') : g = g' := by
  unfold subscribeErrorMsg at h
  exact strAppend_left_inj _ (strAppend_right_inj _ h)

theorem skipValidationMsg_ne_subscribeErrorMsg (g : String) :
    skipValidationMsg ≠ subscribeErrorMsg g := by
  intro h
  have h1 : skipValidationMsg.data.head? = some 'S' := by decide
  have h2 : ∃ t, (subscribeErrorMsg g).data = 'C' :: t := by
    unfold subscribeErrorMsg
    rw [String.data_append, String.data_append]
    have h3 : ("Could not subscribe Datadog Forwarder due to too many existing subscription filter(s) for " : String).data
        = 'C' :: ("ould not subscribe Datadog Forwarder due to too many existing subscription filter(s) for " : String).data := by
      decide
    rw [h3]
    exact ⟨_, rfl⟩
  obtain ⟨t, ht⟩ := h2
  rw [h, ht] at h1
  simp at h1

/-! Characterization of the quota check. -/

theorem foldl_found_eq_any (p : String) (l : List SubscriptionFilterRecord) :
    ∀ b : Bool,
      l.foldl (fun found s => if strStartsWith s.filterName p then true else found) b
        = (b || l.any (fun s => strStartsWith s.filterName p)) := by
  induction l with
  | nil => intro b; simp
  | cons x rest ih =>
    intro b
    rw [List.foldl_cons, ih]
    by_cases hx : strStartsWith x.filterName p
    · simp [hx]
    · simp [hx]

/-- The quota check with its local bindings unfolded. -/
theorem canSubscribeLogGroup_def (aws : AwsEnv) (g p : String) :
    canSubscribeLogGroup aws g p =
      (if !((describeSubscriptionFilters aws g).foldl
              (fun found s => if strStartsWith s.filterName p then true else found) false) &&
            (describeSubscriptionFilters aws g).length ≥ maxAllowableLogGroupSubscriptions then
        false
      else
        true) := rfl

theorem canSubscribeLogGroup_eq_false_iff (aws : AwsEnv) (g p : String) :
    canSubscribeLogGroup aws g p = false ↔
      ((∀ f ∈ describeSubscriptionFilters aws g, strStartsWith f.filterName p = false) ∧
        2 ≤ (describeSubscriptionFilters aws g).length) := by
  rw [canSubscribeLogGroup_def, foldl_found_eq_any]
  simp only [Bool.false_or, maxAllowableLogGroupSubscriptions]
  by_cases hany : (describeSubscriptionFilters aws g).any (fun s => strStartsWith s.filterName p) = true
  · rw [hany]
    simp only [Bool.not_true, Bool.false_and]
    rw [if_neg (by simp)]
    constructor
    · intro h
      cases h
    · rintro ⟨hall, -⟩
      rcases List.any_eq_true.mp hany with ⟨f, hf, hf2⟩
      rw [hall f hf] at hf2
      cases hf2
  · have hall : ∀ f ∈ describeSubscriptionFilters aws g, strStartsWith f.filterName p = false := by
      intro f hf
      by_contra hc
      exact hany (List.any_eq_true.mpr ⟨f, hf, by simpa using hc⟩)
    have hany2 : (describeSubscriptionFilters aws g).any (fun s => strStartsWith s.filterName p) = false :=
      Bool.eq_false_iff.mpr hany
    rw [hany2]
    simp only [Bool.not_false, Bool.true_and]
    by_cases hlen : 2 ≤ (describeSubscriptionFilters aws g).length
    · rw [if_pos (by simpa [ge_iff_le] using hlen)]
      exact ⟨fun _ => ⟨hall, hlen⟩, fun _ => rfl⟩
    · rw [if_neg (by simpa [ge_iff_le] using hlen)]
      constructor
      · intro h
        cases h
      · rintro ⟨-, hlen2⟩
        exact absurd hlen2 hlen

theorem canSubscribeLogGroup_eq_true_of_lt (aws : AwsEnv) (g p : String)
    (h : (describeSubscriptionFilters aws g).length < 2) :
    canSubscribeLogGroup aws g p = true := by
  cases hcs : canSubscribeLogGroup aws g p with
  | true => rfl
  | false =>
    rw [canSubscribeLogGroup_eq_false_iff] at hcs
    exact absurd hcs.2 (by omega)

theorem canSubscribeLogGroup_eq_true_of_match (aws : AwsEnv) (g p : String)
    {f : SubscriptionFilterRecord} (hf : f ∈ describeSubscriptionFilters aws g)
    (h : strStartsWith f.filterName p = true) :
    canSubscribeLogGroup aws g p = true := by
  cases hcs : canSubscribeLogGroup aws g p with
  | true => rfl
  | false =>
    rw [canSubscribeLogGroup_eq_false_iff] at hcs
    have h2 := hcs.1 f hf
    rw [h] at h2
    cases h2

/-! Step equations for one loop iteration. -/

theorem processEntry_writes (service : Service) (aws : AwsEnv) (fa : FunctionArn)
    (acc : Resources × List String) {n g : String}
    (hpre : strStartsWith g "/aws/lambda/" = true)
    (hcan : canSubscribeLogGroup aws g (getExpectedSubName service aws n) = true) :
    processEntry service aws fa acc (n, .logGroup g) =
      (setResource acc.1 (n ++ "Subscription") (subscriptionFor fa n), acc.2) := by
  simp [processEntry, hpre, hcan]

theorem processEntry_refuse (service : Service) (aws : AwsEnv) (fa : FunctionArn)
    (acc : Resources × List String) {n g : String}
    (hpre : strStartsWith g "/aws/lambda/" = true)
    (hcan : canSubscribeLogGroup aws g (getExpectedSubName service aws n) = false) :
    processEntry service aws fa acc (n, .logGroup g) =
      (acc.1, acc.2 ++ [subscribeErrorMsg g]) := by
  simp [processEntry, hpre, hcan]

theorem processEntry_notLambda (service : Service) (aws : AwsEnv) (fa : FunctionArn)
    (acc : Resources × List String) {n g : String}
    (hpre : strStartsWith g "/aws/lambda/" = false) :
    processEntry service aws fa acc (n, .logGroup g) = acc := by
  simp [processEntry, hpre]

theorem processEntry_notLogGroup (service : Service) (aws : AwsEnv) (fa : FunctionArn)
    (acc : Resources × List String) {n : String} {r : Resource}
    (hr : isLogGroup r = false) :
    processEntry service aws fa acc (n, r) = acc := by
  cases r with
  | logGroup g => simp [isLogGroup] at hr
  | subscriptionFilter a b c => rfl
  | other t => rfl

/-- The first (resources) component of what one iteration does, as a
function of the resources component alone. -/
theorem processEntry_fst (service : Service) (aws : AwsEnv) (fa : FunctionArn)
    (acc : Resources × List String) (entry : String × Resource) :
    (processEntry service aws fa acc entry).1 =
      (processEntry service aws fa (acc.1, []) entry).1 := by
  obtain ⟨n, r⟩ := entry
  cases r with
  | logGroup g =>
    by_cases hpre : strStartsWith g "/aws/lambda/" = true
    · by_cases hcan : canSubscribeLogGroup aws g (getExpectedSubName service aws n) = true
      · rw [processEntry_writes _ _ _ _ hpre hcan, processEntry_writes _ _ _ _ hpre hcan]
      · rw [processEntry_refuse _ _ _ _ hpre (Bool.eq_false_iff.mpr hcan),
          processEntry_refuse _ _ _ _ hpre (Bool.eq_false_iff.mpr hcan)]
    · rw [processEntry_notLambda _ _ _ _ (Bool.eq_false_iff.mpr hpre),
        processEntry_notLambda _ _ _ _ (Bool.eq_false_iff.mpr hpre)]
  | subscriptionFilter a b c => rfl
  | other t => rfl

/-- One iteration appends `entryWarning` to the error accumulator. -/
theorem processEntry_snd (service : Service) (aws : AwsEnv) (fa : FunctionArn)
    (acc : Resources × List String) (entry : String × Resource) :
    (processEntry service aws fa acc entry).2 =
      acc.2 ++ (entryWarning service aws entry).toList := by
  obtain ⟨n, r⟩ := entry
  cases r with
  | logGroup g =>
    by_cases hpre : strStartsWith g "/aws/lambda/" = true
    · by_cases hcan : canSubscribeLogGroup aws g (getExpectedSubName service aws n) = true
      · rw [processEntry_writes _ _ _ _ hpre hcan]
        simp [entryWarning, hpre, hcan]
      · rw [processEntry_refuse _ _ _ _ hpre (Bool.eq_false_iff.mpr hcan)]
        simp [entryWarning, hpre, hcan]
    · rw [processEntry_notLambda _ _ _ _ (Bool.eq_false_iff.mpr hpre)]
      simp [entryWarning, hpre]
  | subscriptionFilter a b c => simp [processEntry, entryWarning]
  | other t => simp [processEntry, entryWarning]

/-! Lemmas about the whole loop. -/

/-- The final template state does not depend on the incoming error list. -/
theorem runLoop_fst_errors (service : Service) (aws : AwsEnv) (fa : FunctionArn) :
    ∀ (snap : List (String × Resource)) (rs : Resources) (e e' : List String),
      (runLoop service aws fa snap (rs, e)).1 = (runLoop service aws fa snap (rs, e')).1 := by
  intro snap
  induction snap with
  | nil => intro rs e e'; rfl
  | cons x rest ih =>
    intro rs e e'
    have h12 : (processEntry service aws fa (rs, e) x).1
        = (processEntry service aws fa (rs, e') x).1 := by
      rw [processEntry_fst service aws fa (rs, e) x, processEntry_fst service aws fa (rs, e') x]
    show (runLoop service aws fa rest ((processEntry service aws fa (rs, e) x).1,
        (processEntry service aws fa (rs, e) x).2)).1
      = (runLoop service aws fa rest ((processEntry service aws fa (rs, e') x).1,
        (processEntry service aws fa (rs, e') x).2)).1
    rw [h12]
    exact ih _ _ _

/-- The warnings the loop returns are the incoming errors followed by
`loopWarnings` of the snapshot; they do not depend on the template state. -/
theorem runLoop_snd_eq (service : Service) (aws : AwsEnv) (fa : FunctionArn) :
    ∀ (snap : List (String × Resource)) (rs : Resources) (e : List String),
      (runLoop service aws fa snap (rs, e)).2 = e ++ loopWarnings service aws snap := by
  intro snap
  induction snap with
  | nil => intro rs e; simp [runLoop, loopWarnings]
  | cons x rest ih =>
    intro rs e
    show (runLoop service aws fa rest ((processEntry service aws fa (rs, e) x).1,
        (processEntry service aws fa (rs, e) x).2)).2 = e ++ loopWarnings service aws (x :: rest)
    rw [processEntry_snd, ih, List.append_assoc]
    congr 1
    cases h : entryWarning service aws x <;> simp [loopWarnings, List.filterMap_cons, h]

/-- The loop only ever writes subscription-filter values, so a log-group
entry of the final state was already in the initial state. -/
theorem mem_logGroup_of_runLoop (service : Service) (aws : AwsEnv) (fa : FunctionArn)
    {n g : String} :
    ∀ (snap : List (String × Resource)) (acc : Resources × List String),
      (n, Resource.logGroup g) ∈ (runLoop service aws fa snap acc).1 →
      (n, Resource.logGroup g) ∈ acc.1 := by
  intro snap
  induction snap with
  | nil => intro acc h; exact h
  | cons x rest ih =>
    intro acc h
    have h1 : (n, Resource.logGroup g) ∈ (processEntry service aws fa acc x).1 := ih _ h
    obtain ⟨m, r⟩ := x
    cases r with
    | logGroup g2 =>
      by_cases hpre : strStartsWith g2 "/aws/lambda/" = true
      · by_cases hcan : canSubscribeLogGroup aws g2 (getExpectedSubName service aws m) = true
        · rw [processEntry_writes _ _ _ _ hpre hcan] at h1
          rcases mem_of_mem_setResource h1 with h2 | h2
          · exact h2
          · simp [subscriptionFor] at h2
        · rw [processEntry_refuse _ _ _ _ hpre (Bool.eq_false_iff.mpr hcan)] at h1
          exact h1
      · rw [processEntry_notLambda _ _ _ _ (Bool.eq_false_iff.mpr hpre)] at h1
        exact h1
    | subscriptionFilter a b c => exact h1
    | other t => exact h1

/-- Once the derived key holds its subscription value, the rest of the loop
leaves it there: any later write to that key writes the same value. -/
theorem getResource_runLoop_persist (service : Service) (aws : AwsEnv) (fa : FunctionArn)
    {n : String} :
    ∀ (snap : List (String × Resource)) (acc : Resources × List String),
      getResource acc.1 (n ++ "Subscription") = some (subscriptionFor fa n) →
      getResource (runLoop service aws fa snap acc).1 (n ++ "Subscription")
        = some (subscriptionFor fa n) := by
  intro snap
  induction snap with
  | nil => intro acc h; exact h
  | cons x rest ih =>
    intro acc h
    refine ih (processEntry service aws fa acc x) ?_
    obtain ⟨m, r⟩ := x
    cases r with
    | logGroup g2 =>
      by_cases hpre : strStartsWith g2 "/aws/lambda/" = true
      · by_cases hcan : canSubscribeLogGroup aws g2 (getExpectedSubName service aws m) = true
        · rw [processEntry_writes _ _ _ _ hpre hcan]
          by_cases hk : m ++ "Subscription" = n ++ "Subscription"
          · have hmn : m = n := subscriptionName_inj hk
            subst hmn
            simpa using getResource_setResource_self acc.1 (m ++ "Subscription") (subscriptionFor fa m)
          · simpa [getResource_setResource_ne _ _ hk] using h
        · rw [processEntry_refuse _ _ _ _ hpre (Bool.eq_false_iff.mpr hcan)]
          exact h
      · rw [processEntry_notLambda _ _ _ _ (Bool.eq_false_iff.mpr hpre)]
        exact h
    | subscriptionFilter a b c => exact h
    | other t => exact h

/-- An admissible log-group entry of the snapshot ends up with its
subscription written under the derived key. -/
theorem getResource_runLoop_admissible (service : Service) (aws : AwsEnv) (fa : FunctionArn)
    {n g : String} (hpre : strStartsWith g "/aws/lambda/" = true)
    (hcan : canSubscribeLogGroup aws g (getExpectedSubName service aws n) = true) :
    ∀ (snap : List (String × Resource)) (acc : Resources × List String),
      (n, Resource.logGroup g) ∈ snap →
      getResource (runLoop service aws fa snap acc).1 (n ++ "Subscription")
        = some (subscriptionFor fa n) := by
  intro snap
  induction snap with
  | nil => intro acc h; simp at h
  | cons x rest ih =>
    intro acc h
    rcases List.mem_cons.mp h with h1 | h1
    · subst h1
      show getResource (runLoop service aws fa rest
        (processEntry service aws fa acc (n, Resource.logGroup g))).1 (n ++ "Subscription")
        = some (subscriptionFor fa n)
      rw [processEntry_writes _ _ _ _ hpre hcan]
      exact getResource_runLoop_persist service aws fa rest _
        (getResource_setResource_self acc.1 (n ++ "Subscription") (subscriptionFor fa n))
    · exact ih (processEntry service aws fa acc x) h1

/-- A key that no admissible log-group entry of the snapshot derives is left
exactly as it was. -/
theorem getResource_runLoop_not_written (service : Service) (aws : AwsEnv) (fa : FunctionArn)
    {k : String} :
    ∀ (snap : List (String × Resource)) (acc : Resources × List String),
      (∀ m g', (m, Resource.logGroup g') ∈ snap →
        strStartsWith g' "/aws/lambda/" = true →
        canSubscribeLogGroup aws g' (getExpectedSubName service aws m) = true →
        m ++ "Subscription" ≠ k) →
      getResource (runLoop service aws fa snap acc).1 k = getResource acc.1 k := by
  intro snap
  induction snap with
  | nil => intro acc h; rfl
  | cons x rest ih =>
    intro acc h
    have hrest : ∀ m g', (m, Resource.logGroup g') ∈ rest →
        strStartsWith g' "/aws/lambda/" = true →
        canSubscribeLogGroup aws g' (getExpectedSubName service aws m) = true →
        m ++ "Subscription" ≠ k := by
      intro m g' hm
      exact h m g' (List.mem_cons_of_mem _ hm)
    rw [show runLoop service aws fa (x :: rest) acc
        = runLoop service aws fa rest (processEntry service aws fa acc x) from rfl]
    rw [ih (processEntry service aws fa acc x) hrest]
    obtain ⟨m, r⟩ := x
    cases r with
    | logGroup g2 =>
      by_cases hpre : strStartsWith g2 "/aws/lambda/" = true
      · by_cases hcan : canSubscribeLogGroup aws g2 (getExpectedSubName service aws m) = true
        · rw [processEntry_writes _ _ _ _ hpre hcan]
          exact getResource_setResource_ne _ _
            (h m g2 (List.mem_cons_self _ _) hpre hcan)
        · rw [processEntry_refuse _ _ _ _ hpre (Bool.eq_false_iff.mpr hcan)]
      · rw [processEntry_notLambda _ _ _ _ (Bool.eq_false_iff.mpr hpre)]
    | subscriptionFilter a b c => rfl
    | other t => rfl

/-- The loop preserves uniqueness of resource names. -/
theorem nodupKeys_runLoop (service : Service) (aws : AwsEnv) (fa : FunctionArn) :
    ∀ (snap : List (String × Resource)) (acc : Resources × List String),
      nodupKeys acc.1 → nodupKeys (runLoop service aws fa snap acc).1 := by
  intro snap
  induction snap with
  | nil => intro acc h; exact h
  | cons x rest ih =>
    intro acc h
    refine ih (processEntry service aws fa acc x) ?_
    obtain ⟨m, r⟩ := x
    cases r with
    | logGroup g2 =>
      by_cases hpre : strStartsWith g2 "/aws/lambda/" = true
      · by_cases hcan : canSubscribeLogGroup aws g2 (getExpectedSubName service aws m) = true
        · rw [processEntry_writes _ _ _ _ hpre hcan]
          exact nodupKeys_setResource _ _ h
        · rw [processEntry_refuse _ _ _ _ hpre (Bool.eq_false_iff.mpr hcan)]
          exact h
      · rw [processEntry_notLambda _ _ _ _ (Bool.eq_false_iff.mpr hpre)]
        exact h
    | subscriptionFilter a b c => exact h
    | other t => exact h

/-- If every admissible log group of `R` already has its subscription stored
in `R` under the derived key, then running the loop over any snapshot drawn
from `R` leaves the template state exactly `R`. -/
theorem runLoop_fixpoint (service : Service) (aws : AwsEnv) (fa : FunctionArn)
    {R : Resources}
    (hsub : ∀ n g, (n, Resource.logGroup g) ∈ R →
      strStartsWith g "/aws/lambda/" = true →
      canSubscribeLogGroup aws g (getExpectedSubName service aws n) = true →
      getResource R (n ++ "Subscription") = some (subscriptionFor fa n)) :
    ∀ (snap : List (String × Resource)), (∀ x ∈ snap, x ∈ R) →
      ∀ (e : List String), (runLoop service aws fa snap (R, e)).1 = R := by
  intro snap
  induction snap with
  | nil => intro _ e; rfl
  | cons x rest ih =>
    intro h e
    have hx : x ∈ R := h x (List.mem_cons_self _ _)
    have hrest : ∀ y ∈ rest, y ∈ R := fun y hy => h y (List.mem_cons_of_mem _ hy)
    obtain ⟨m, r⟩ := x
    cases r with
    | logGroup g2 =>
      by_cases hpre : strStartsWith g2 "/aws/lambda/" = true
      · by_cases hcan : canSubscribeLogGroup aws g2 (getExpectedSubName service aws m) = true
        · show (runLoop service aws fa rest
            (processEntry service aws fa (R, e) (m, Resource.logGroup g2))).1 = R
          rw [processEntry_writes _ _ _ _ hpre hcan,
            setResource_eq_of_getResource (hsub m g2 hx hpre hcan)]
          exact ih hrest e
        · show (runLoop service aws fa rest
            (processEntry service aws fa (R, e) (m, Resource.logGroup g2))).1 = R
          rw [processEntry_refuse _ _ _ _ hpre (Bool.eq_false_iff.mpr hcan)]
          exact ih hrest _
      · show (runLoop service aws fa rest
          (processEntry service aws fa (R, e) (m, Resource.logGroup g2))).1 = R
        rw [processEntry_notLambda _ _ _ _ (Bool.eq_false_iff.mpr hpre)]
        exact ih hrest e
    | subscriptionFilter a b c =>
      show (runLoop service aws fa rest
        (processEntry service aws fa (R, e) (m, Resource.subscriptionFilter a b c))).1 = R
      rw [processEntry_notLogGroup _ _ _ _ (by rfl)]
      exact ih hrest e
    | other t =>
      show (runLoop service aws fa rest
        (processEntry service aws fa (R, e) (m, Resource.other t))).1 = R
      rw [processEntry_notLogGroup _ _ _ _ (by rfl)]
      exact ih hrest e

/-! Evaluation equations for the whole reconciler. -/

theorem run_expression_eq (service : Service) (aws : AwsEnv)
    (obj : CloudFormationObjectArn) (rs : Resources) :
    addCloudWatchForwarderSubscriptions service aws (.expression obj) (some rs)
      = .ok (some (runLoop service aws (.expression obj) rs (rs, [skipValidationMsg])).1,
          (runLoop service aws (.expression obj) rs (rs, [skipValidationMsg])).2) := rfl

theorem run_literal_ok_eq (service : Service) (aws : AwsEnv) (arn : String)
    (rs : Resources) (h : aws.getFunctionOk (.literal arn) = true) :
    addCloudWatchForwarderSubscriptions service aws (.literal arn) (some rs)
      = .ok (some (runLoop service aws (.literal arn) rs (rs, [])).1,
          (runLoop service aws (.literal arn) rs (rs, [])).2) := by
  simp [addCloudWatchForwarderSubscriptions, validateForwarderArn, h]

theorem run_literal_err_eq (service : Service) (aws : AwsEnv) (arn : String)
    (rs : Resources) (h : aws.getFunctionOk (.literal arn) = false) :
    addCloudWatchForwarderSubscriptions service aws (.literal arn) (some rs)
      = .error ⟨"Could not perform GetFunction on " ++ arn ++ "."⟩ := by
  simp [addCloudWatchForwarderSubscriptions, validateForwarderArn, h, functionArnToString]

/-- Inversion: a successful run over a present template section is exactly a
loop run seeded with the validation-phase warnings. -/
theorem run_some_ok_inv {service : Service} {aws : AwsEnv} {fa : FunctionArn}
    {rs : Resources} {out : Option Resources × List String}
    (h : addCloudWatchForwarderSubscriptions service aws fa (some rs) = .ok out) :
    ∃ e, (e = [] ∨ e = [skipValidationMsg]) ∧
      out = (some (runLoop service aws fa rs (rs, e)).1,
        (runLoop service aws fa rs (rs, e)).2) := by
  cases fa with
  | expression obj =>
    refine ⟨[skipValidationMsg], Or.inr rfl, ?_⟩
    rw [run_expression_eq] at h
    exact (Except.ok.injEq .. ▸ h).symm
  | literal arn =>
    cases hok : aws.getFunctionOk (.literal arn) with
    | true =>
      refine ⟨[], Or.inl rfl, ?_⟩
      rw [run_literal_ok_eq service aws arn rs hok] at h
      exact (Except.ok.injEq .. ▸ h).symm
    | false =>
      rw [run_literal_err_eq service aws arn rs hok] at h
      cases h

/-- The naming computation with its local bindings unfolded. -/
theorem getExpectedSubName_def (service : Service) (aws : AwsEnv) (name : String) :
    getExpectedSubName service aws name =
      (match aws.stackName with
      | some stackName =>
        if stackName ≠ "" then
          stackName ++ "-" ++ (name ++ "Subscription") ++ "-"
        else
          service.serviceName ++ "-" ++ aws.stage ++ "-" ++ (name ++ "Subscription") ++ "-"
      | none =>
        service.serviceName ++ "-" ++ aws.stage ++ "-" ++ (name ++ "Subscription") ++ "-") := rfl

/-- A loop warning always is the quota warning of a refused lambda log group. -/
theorem entryWarning_eq_some {service : Service} {aws : AwsEnv}
    {entry : String × Resource} {w : String}
    (h : entryWarning service aws entry = some w) :
    ∃ g, entry.2 = Resource.logGroup g ∧ strStartsWith g "/aws/lambda/" = true ∧
      canSubscribeLogGroup aws g (getExpectedSubName service aws entry.1) = false ∧
      w = subscribeErrorMsg g := by
  obtain ⟨m, r⟩ := entry
  cases r with
  | logGroup g =>
    by_cases hpre : strStartsWith g "/aws/lambda/" = true
    · by_cases hcan : canSubscribeLogGroup aws g (getExpectedSubName service aws m) = true
      · simp [entryWarning, hpre, hcan] at h
      · have hcan2 : canSubscribeLogGroup aws g (getExpectedSubName service aws m) = false :=
          Bool.eq_false_iff.mpr hcan
        simp only [entryWarning, hpre, hcan2, if_true, Bool.false_eq_true, if_false,
          Option.some.injEq] at h
        exact ⟨g, rfl, hpre, hcan2, h.symm⟩
    · have hpre2 : strStartsWith g "/aws/lambda/" = false := Bool.eq_false_iff.mpr hpre
      simp [entryWarning, hpre2] at h
  | subscriptionFilter a b c => simp [entryWarning] at h
  | other t => simp [entryWarning] at h

/-- With unique keys, a key determines its value. -/
theorem value_eq_of_nodupKeys {rs : Resources} (h : nodupKeys rs) {k : String}
    {v1 v2 : Resource} (h1 : (k, v1) ∈ rs) (h2 : (k, v2) ∈ rs) : v1 = v2 := by
  have e1 := getResource_eq_of_mem h h1
  have e2 := getResource_eq_of_mem h h2
  rw [e1] at e2
  exact Option.some.inj e2

/-- On a unique-key snapshot in which exactly the entry `(n, logGroup g)` can
produce the quota warning for `g`, that warning appears exactly once. -/
theorem loopWarnings_count_one (service : Service) (aws : AwsEnv) {n g : String} :
    ∀ l : List (String × Resource), nodupKeys l →
      (n, Resource.logGroup g) ∈ l →
      entryWarning service aws (n, Resource.logGroup g) = some (subscribeErrorMsg g) →
      (∀ m r, (m, r) ∈ l → entryWarning service aws (m, r) = some (subscribeErrorMsg g) →
        (m, r) = (n, Resource.logGroup g)) →
      (loopWarnings service aws l).count (subscribeErrorMsg g) = 1 := by
  intro l
  induction l with
  | nil =>
    intro _ hmem
    simp at hmem
  | cons x rest ih =>
    intro hnd hmem hw huniq
    have hnd1 : x.1 ∉ rest.map Prod.fst ∧ (rest.map Prod.fst).Nodup := by
      unfold nodupKeys at hnd
      simpa using hnd
    rcases List.mem_cons.mp hmem with h1 | h1
    · have hz : (loopWarnings service aws rest).count (subscribeErrorMsg g) = 0 := by
        rw [List.count_eq_zero]
        intro hmem2
        rcases List.mem_filterMap.mp hmem2 with ⟨e, he, hwe⟩
        obtain ⟨m, r⟩ := e
        have heq := huniq m r (List.mem_cons_of_mem _ he) hwe
        have hm : m = n := congrArg Prod.fst heq
        refine hnd1.1 (List.mem_map.mpr ⟨(m, r), he, ?_⟩)
        rw [← h1]
        exact hm
      unfold loopWarnings
      rw [List.filterMap_cons_some (h1 ▸ hw)]
      rw [List.count_cons_self]
      unfold loopWarnings at hz
      rw [hz]
    · obtain ⟨mx, rx⟩ := x
      have hxne : entryWarning service aws (mx, rx) ≠ some (subscribeErrorMsg g) := by
        intro hwe
        have heq := huniq mx rx (List.mem_cons_self _ _) hwe
        have hm : mx = n := congrArg Prod.fst heq
        exact hnd1.1 (List.mem_map.mpr ⟨(n, Resource.logGroup g), h1, hm.symm⟩)
      have hrest := ih hnd1.2 h1 hw
        (fun m r hmr => huniq m r (List.mem_cons_of_mem _ hmr))
      cases hwx : entryWarning service aws (mx, rx) with
      | none =>
        unfold loopWarnings
        rw [List.filterMap_cons_none hwx]
        exact hrest
      | some w =>
        have hwne : subscribeErrorMsg g ≠ w := by
          intro hh
          exact hxne (hh ▸ hwx)
        unfold loopWarnings
        rw [List.filterMap_cons_some hwx, List.count_cons_of_ne hwne]
        exact hrest

/-- The reconciler never consults `getFunction` when the forwarder target is
a CloudFormation expression: the loop is insensitive to that field. -/
theorem runLoop_getFunctionOk (service : Service) (aws : AwsEnv)
    (ok2 : FunctionArn → Bool) (fa : FunctionArn) :
    ∀ (snap : List (String × Resource)) (acc : Resources × List String),
      runLoop service { aws with getFunctionOk := ok2 } fa snap acc
        = runLoop service aws fa snap acc := by
  intro snap
  induction snap with
  | nil => intro acc; rfl
  | cons x rest ih =>
    intro acc
    have hpe : processEntry service { aws with getFunctionOk := ok2 } fa acc x
        = processEntry service aws fa acc x := rfl
    show runLoop service { aws with getFunctionOk := ok2 } fa rest
        (processEntry service { aws with getFunctionOk := ok2 } fa acc x)
      = runLoop service aws fa rest (processEntry service aws fa acc x)
    rw [hpe]
    exact ih _

/-! The claims. -/

/-- Claim C1: for every log group name and expected name, `canSubscribeLogGroup`
returns true if some live filter's `filterName` starts with the expected name
(regardless of how many filters exist), returns true if fewer than 2 live
filters exist, and returns false exactly when no filter name starts with the
expected name and at least 2 live filters exist. -/
theorem canSubscribeLogGroup_decision (aws : AwsEnv) (logGroupName expectedSubName : String) :
    ((∃ f ∈ describeSubscriptionFilters aws logGroupName,
        strStartsWith f.filterName expectedSubName = true) →
      canSubscribeLogGroup aws logGroupName expectedSubName = true) ∧
    ((describeSubscriptionFilters aws logGroupName).length < 2 →
      canSubscribeLogGroup aws logGroupName expectedSubName = true) ∧
    (canSubscribeLogGroup aws logGroupName expectedSubName = false ↔
      ((∀ f ∈ describeSubscriptionFilters aws logGroupName,
          strStartsWith f.filterName expectedSubName = false) ∧
        2 ≤ (describeSubscriptionFilters aws logGroupName).length)) := by
  refine ⟨?_, ?_, canSubscribeLogGroup_eq_false_iff aws _ _⟩
  · rintro ⟨f, hf, hmatch⟩
    exact canSubscribeLogGroup_eq_true_of_match aws _ _ hf hmatch
  · exact canSubscribeLogGroup_eq_true_of_lt aws _ _

/-- Claim C2: with a template section present and a literal forwarder ARN whose
live getFunction lookup fails, the reconciler raises
`DatadogForwarderNotFoundError`: the run produces no template state and no
warning sequence at all (the error is the entire outcome). -/
theorem reconcile_fatal_abort (service : Service) (aws : AwsEnv) (arn : String)
    (rs : Resources) (h : aws.getFunctionOk (.literal arn) = false) :
    addCloudWatchForwarderSubscriptions service aws (.literal arn) (some rs)
      = .error ⟨"Could not perform GetFunction on " ++ arn ++ "."⟩ :=
  run_literal_err_eq service aws arn rs h

theorem reconcile_fatal_abort_witness :
    wAwsFail.getFunctionOk (.literal "arn:aws:lambda:us-east-1:123:function:fwd") = false ∧
    addCloudWatchForwarderSubscriptions wService wAwsFail
        (.literal "arn:aws:lambda:us-east-1:123:function:fwd") (some wRes)
      = .error ⟨"Could not perform GetFunction on "
          ++ "arn:aws:lambda:us-east-1:123:function:fwd" ++ "."⟩ :=
  ⟨rfl, reconcile_fatal_abort wService wAwsFail "arn:aws:lambda:us-east-1:123:function:fwd" wRes rfl⟩

/-- Claim C7: for every log group name, a failing live listing makes
`describeSubscriptionFilters` return the empty sequence instead of
propagating the error, and the quota check then succeeds as if there were
zero live filters. -/
theorem describeSubscriptionFilters_failure (aws : AwsEnv) (logGroupName : String)
    (h : aws.describeSubscriptionFiltersRequest logGroupName = none) :
    describeSubscriptionFilters aws logGroupName = [] ∧
    (∀ expectedSubName, canSubscribeLogGroup aws logGroupName expectedSubName = true) := by
  have h1 : describeSubscriptionFilters aws logGroupName = [] := by
    unfold describeSubscriptionFilters
    rw [h]
  refine ⟨h1, fun p => canSubscribeLogGroup_eq_true_of_lt aws _ p (by rw [h1]; simp)⟩

theorem describeSubscriptionFilters_failure_witness :
    wAwsNone.describeSubscriptionFiltersRequest "/aws/lambda/x" = none ∧
    describeSubscriptionFilters wAwsNone "/aws/lambda/x" = [] ∧
    (∀ expectedSubName, canSubscribeLogGroup wAwsNone "/aws/lambda/x" expectedSubName = true) :=
  ⟨rfl, describeSubscriptionFilters_failure wAwsNone "/aws/lambda/x" rfl⟩

/-- Claim C8: for every template lacking a resource section and every
environment and forwarder target (in particular one whose lookup would fail),
the reconciler returns exactly the one informational result, raises nothing,
and performs no mutation and no live calls. -/
theorem reconcile_missing_resources (service : Service) (aws : AwsEnv) (fa : FunctionArn) :
    addCloudWatchForwarderSubscriptions service aws fa none = .ok (none, [noStackMsg]) := rfl

/-- Claim C9: the expected subscription name for the log-group resource named
`name` is `"<stackName>-<name>Subscription-"` whenever the stack name is
available (truthy), and
`"<serviceName>-<stage>-<name>Subscription-"` otherwise; the stack-name form
wins whenever both are derivable since it is applied unconditionally. -/
theorem getExpectedSubName_naming (service : Service) (aws : AwsEnv) (name : String) :
    (stackNameAvailable aws = true →
      ∃ s, aws.stackName = some s ∧
        getExpectedSubName service aws name = s ++ "-" ++ name ++ "Subscription" ++ "-") ∧
    (stackNameAvailable aws = false →
      getExpectedSubName service aws name =
        service.serviceName ++ "-" ++ aws.stage ++ "-" ++ name ++ "Subscription" ++ "-") := by
  constructor
  · intro h
    unfold stackNameAvailable at h
    cases hst : aws.stackName with
    | none => rw [hst] at h; cases h
    | some s =>
      rw [hst] at h
      have hs : s ≠ "" := by simpa using h
      refine ⟨s, rfl, ?_⟩
      apply String.ext
      rw [getExpectedSubName_def, hst]
      simp [hs, String.data_append, List.append_assoc]
  · intro h
    unfold stackNameAvailable at h
    cases hst : aws.stackName with
    | none =>
      apply String.ext
      rw [getExpectedSubName_def, hst]
      simp [String.data_append, List.append_assoc]
    | some s =>
      rw [hst] at h
      have hs : s = "" := by simpa using h
      apply String.ext
      rw [getExpectedSubName_def, hst]
      simp [hs, String.data_append, List.append_assoc]

/-- Claim C5: for every admissible log-group resource named `n` (a lambda log
group that passes the quota check), a successful run leaves under the key
`n ++ "Subscription"` exactly the subscription resource with empty filter
pattern, the forwarder target as destination, and a reference back to `n` —
regardless of what was stored under that key before (last writer wins). -/
theorem mutator_writes_subscription (service : Service) (aws : AwsEnv) (fa : FunctionArn)
    {rs r1 : Resources} {w1 : List String} {n g : String}
    (hrun : addCloudWatchForwarderSubscriptions service aws fa (some rs) = .ok (some r1, w1))
    (hmem : (n, Resource.logGroup g) ∈ rs)
    (hpre : strStartsWith g "/aws/lambda/" = true)
    (hcan : canSubscribeLogGroup aws g (getExpectedSubName service aws n) = true) :
    getResource r1 (n ++ "Subscription") = some (Resource.subscriptionFilter fa "" n) := by
  rcases run_some_ok_inv hrun with ⟨e, -, hout⟩
  have h1 : r1 = (runLoop service aws fa rs (rs, e)).1 := by
    have h2 := congrArg Prod.fst hout
    simpa using h2
  rw [h1]
  exact getResource_runLoop_admissible service aws fa hpre hcan rs (rs, e) hmem

theorem mutator_writes_subscription_witness :
    addCloudWatchForwarderSubscriptions wService wAws (.literal "arn") (some wResOver)
      = .ok (some [("B", .logGroup "/aws/lambda/y"),
          ("BSubscription", .subscriptionFilter (.literal "arn") "" "B")], []) ∧
    getResource [("B", .logGroup "/aws/lambda/y"),
        ("BSubscription", .subscriptionFilter (.literal "arn") "" "B")] ("B" ++ "Subscription")
      = some (Resource.subscriptionFilter (.literal "arn") "" "B") :=
  ⟨by decide,
    @mutator_writes_subscription wService wAws (.literal "arn") wResOver
      [("B", .logGroup "/aws/lambda/y"),
        ("BSubscription", .subscriptionFilter (.literal "arn") "" "B")] []
      "B" "/aws/lambda/y" (by decide) (by decide) (by decide) (by decide)⟩

/-- Claim C6: with a template section present and a CloudFormation-expression
forwarder target, the reconciler completes without raising, counts exactly
one skip-validation warning, writes the subscription for every admissible
lambda log group, and its outcome is independent of the getFunction lookup
(no existence check is consulted). -/
theorem reconcile_expression_bypass (service : Service) (aws : AwsEnv)
    (obj : CloudFormationObjectArn) (rs : Resources) :
    ∃ r1 w1,
      addCloudWatchForwarderSubscriptions service aws (.expression obj) (some rs)
        = .ok (some r1, w1) ∧
      w1.count skipValidationMsg = 1 ∧
      (∀ n g, (n, Resource.logGroup g) ∈ rs → strStartsWith g "/aws/lambda/" = true →
        canSubscribeLogGroup aws g (getExpectedSubName service aws n) = true →
        getResource r1 (n ++ "Subscription")
          = some (Resource.subscriptionFilter (.expression obj) "" n)) ∧
      (∀ ok2, addCloudWatchForwarderSubscriptions service
          { aws with getFunctionOk := ok2 } (.expression obj) (some rs)
        = addCloudWatchForwarderSubscriptions service aws (.expression obj) (some rs)) := by
  refine ⟨(runLoop service aws (.expression obj) rs (rs, [skipValidationMsg])).1,
    (runLoop service aws (.expression obj) rs (rs, [skipValidationMsg])).2,
    run_expression_eq service aws obj rs, ?_, ?_, ?_⟩
  · rw [runLoop_snd_eq, List.count_append]
    have hz : (loopWarnings service aws rs).count skipValidationMsg = 0 := by
      rw [List.count_eq_zero]
      intro hmem
      rcases List.mem_filterMap.mp hmem with ⟨e, -, hwe⟩
      rcases entryWarning_eq_some hwe with ⟨g, -, -, -, hmsg⟩
      exact skipValidationMsg_ne_subscribeErrorMsg g hmsg
    rw [hz]
    rfl
  · intro n g hmem hpre hcan
    exact getResource_runLoop_admissible service aws (.expression obj) hpre hcan rs _ hmem
  · intro ok2
    rw [run_expression_eq, run_expression_eq, runLoop_getFunctionOk]

/-- Claim C10: on a successful run, the only keys whose value differs from
the input template are derived keys `n ++ "Subscription"` for admissible
lambda log-group resources `n` (and a pre-existing resource of any type
under such a key gets silently overwritten with the subscription), and no
key is ever removed. -/
theorem reconcile_frame (service : Service) (aws : AwsEnv) (fa : FunctionArn)
    {rs r1 : Resources} {w1 : List String}
    (hrun : addCloudWatchForwarderSubscriptions service aws fa (some rs) = .ok (some r1, w1)) :
    (∀ k, getResource r1 k ≠ getResource rs k →
      ∃ n g, k = n ++ "Subscription" ∧ (n, Resource.logGroup g) ∈ rs ∧
        strStartsWith g "/aws/lambda/" = true ∧
        canSubscribeLogGroup aws g (getExpectedSubName service aws n) = true ∧
        getResource r1 k = some (Resource.subscriptionFilter fa "" n)) ∧
    (∀ k v, getResource rs k = some v → ∃ v2, getResource r1 k = some v2) := by
  rcases run_some_ok_inv hrun with ⟨e, -, hout⟩
  have h1 : r1 = (runLoop service aws fa rs (rs, e)).1 := by
    have h2 := congrArg Prod.fst hout
    simpa using h2
  have hframe : ∀ k, getResource r1 k ≠ getResource rs k →
      ∃ n g, k = n ++ "Subscription" ∧ (n, Resource.logGroup g) ∈ rs ∧
        strStartsWith g "/aws/lambda/" = true ∧
        canSubscribeLogGroup aws g (getExpectedSubName service aws n) = true ∧
        getResource r1 k = some (Resource.subscriptionFilter fa "" n) := by
    intro k hk
    by_cases hex : ∃ n g, k = n ++ "Subscription" ∧ (n, Resource.logGroup g) ∈ rs ∧
        strStartsWith g "/aws/lambda/" = true ∧
        canSubscribeLogGroup aws g (getExpectedSubName service aws n) = true
    · rcases hex with ⟨n, g, hkn, hmem, hpre, hcan⟩
      refine ⟨n, g, hkn, hmem, hpre, hcan, ?_⟩
      rw [h1, hkn]
      exact getResource_runLoop_admissible service aws fa hpre hcan rs (rs, e) hmem
    · exfalso
      apply hk
      rw [h1]
      apply getResource_runLoop_not_written
      intro m g' hm hp hc hkm
      exact hex ⟨m, g', hkm.symm, hm, hp, hc⟩
  refine ⟨hframe, ?_⟩
  intro k v hv
  by_cases heq : getResource r1 k = getResource rs k
  · exact ⟨v, by rw [heq]; exact hv⟩
  · rcases hframe k heq with ⟨n, g, -, -, -, -, hval⟩
    exact ⟨_, hval⟩

theorem reconcile_frame_witness :
    addCloudWatchForwarderSubscriptions wService wAws (.literal "arn") (some wRes)
      = .ok (some [("A", .logGroup "/aws/lambda/x"), ("B", .logGroup "/aws/lambda/y"),
          ("BSubscription", .subscriptionFilter (.literal "arn") "" "B")],
          [subscribeErrorMsg "/aws/lambda/x"]) ∧
    (∃ n g, ("BSubscription" : String) = n ++ "Subscription" ∧
      (n, Resource.logGroup g) ∈ wRes ∧
      strStartsWith g "/aws/lambda/" = true ∧
      canSubscribeLogGroup wAws g (getExpectedSubName wService wAws n) = true ∧
      getResource [("A", Resource.logGroup "/aws/lambda/x"),
          ("B", Resource.logGroup "/aws/lambda/y"),
          ("BSubscription", Resource.subscriptionFilter (.literal "arn") "" "B")]
        "BSubscription" = some (Resource.subscriptionFilter (.literal "arn") "" n)) :=
  ⟨by decide,
    (@reconcile_frame wService wAws (.literal "arn") wRes
      [("A", .logGroup "/aws/lambda/x"), ("B", .logGroup "/aws/lambda/y"),
        ("BSubscription", .subscriptionFilter (.literal "arn") "" "B")]
      [subscribeErrorMsg "/aws/lambda/x"] (by decide)).1 "BSubscription" (by decide)⟩

/-- Claim C4: for a lambda log-group resource `n` (the unique template entry
naming log group `g`) whose live state already holds at least 2 filters none
of which matches the expected name, a successful run leaves the derived key
untouched, emits exactly one quota warning naming `g`, and still processes
every other admissible log group. -/
theorem reconcile_quota_skip (service : Service) (aws : AwsEnv) (fa : FunctionArn)
    {rs r1 : Resources} {w1 : List String} {n g : String}
    (hrun : addCloudWatchForwarderSubscriptions service aws fa (some rs) = .ok (some r1, w1))
    (hnd : nodupKeys rs)
    (hmem : (n, Resource.logGroup g) ∈ rs)
    (hpre : strStartsWith g "/aws/lambda/" = true)
    (hlen : 2 ≤ (describeSubscriptionFilters aws g).length)
    (hnomatch : ∀ f ∈ describeSubscriptionFilters aws g,
      strStartsWith f.filterName (getExpectedSubName service aws n) = false)
    (huniq : ∀ m, (m, Resource.logGroup g) ∈ rs → m = n) :
    getResource r1 (n ++ "Subscription") = getResource rs (n ++ "Subscription") ∧
    w1.count (subscribeErrorMsg g) = 1 ∧
    (∀ m g2, (m, Resource.logGroup g2) ∈ rs → strStartsWith g2 "/aws/lambda/" = true →
      canSubscribeLogGroup aws g2 (getExpectedSubName service aws m) = true →
      getResource r1 (m ++ "Subscription")
        = some (Resource.subscriptionFilter fa "" m)) := by
  have hcan : canSubscribeLogGroup aws g (getExpectedSubName service aws n) = false :=
    (canSubscribeLogGroup_eq_false_iff aws g _).mpr ⟨hnomatch, hlen⟩
  rcases run_some_ok_inv hrun with ⟨e, he, hout⟩
  have hr1 : r1 = (runLoop service aws fa rs (rs, e)).1 := by
    have h2 := congrArg Prod.fst hout
    simpa using h2
  have hw1 : w1 = (runLoop service aws fa rs (rs, e)).2 := by
    have h2 := congrArg Prod.snd hout
    simpa using h2
  refine ⟨?_, ?_, ?_⟩
  · rw [hr1]
    apply getResource_runLoop_not_written
    intro m g2 hm hp hc hkey
    have hmn : m = n := subscriptionName_inj hkey
    subst hmn
    have hval : Resource.logGroup g2 = Resource.logGroup g :=
      value_eq_of_nodupKeys hnd hm hmem
    have hg : g2 = g := by
      injection hval
    rw [hg] at hc
    rw [hc] at hcan
    cases hcan
  · rw [hw1, runLoop_snd_eq, List.count_append]
    have he0 : e.count (subscribeErrorMsg g) = 0 := by
      rcases he with rfl | rfl
      · rfl
      · rw [List.count_eq_zero]
        intro hmem2
        have h3 := List.mem_singleton.mp hmem2
        exact skipValidationMsg_ne_subscribeErrorMsg g h3.symm
    rw [he0]
    have hw : entryWarning service aws (n, Resource.logGroup g) = some (subscribeErrorMsg g) := by
      simp [entryWarning, hpre, hcan]
    have huniq2 : ∀ m r, (m, r) ∈ rs →
        entryWarning service aws (m, r) = some (subscribeErrorMsg g) →
        (m, r) = (n, Resource.logGroup g) := by
      intro m r hmr hwr
      rcases entryWarning_eq_some hwr with ⟨g2, hr, -, -, hmsg⟩
      have hg : g = g2 := subscribeErrorMsg_inj hmsg
      subst hg
      have hrr : r = Resource.logGroup g := hr
      subst hrr
      have hm := huniq m hmr
      rw [hm]
    rw [loopWarnings_count_one service aws rs hnd hmem hw huniq2]
  · intro m g2 hm hp hc
    rw [hr1]
    exact getResource_runLoop_admissible service aws fa hp hc rs (rs, e) hm

theorem reconcile_quota_skip_witness :
    addCloudWatchForwarderSubscriptions wService wAws (.literal "arn") (some wRes)
      = .ok (some [("A", .logGroup "/aws/lambda/x"), ("B", .logGroup "/aws/lambda/y"),
          ("BSubscription", .subscriptionFilter (.literal "arn") "" "B")],
          [subscribeErrorMsg "/aws/lambda/x"]) ∧
    2 ≤ (describeSubscriptionFilters wAws "/aws/lambda/x").length ∧
    (getResource [("A", Resource.logGroup "/aws/lambda/x"),
        ("B", Resource.logGroup "/aws/lambda/y"),
        ("BSubscription", Resource.subscriptionFilter (.literal "arn") "" "B")]
        ("A" ++ "Subscription") = getResource wRes ("A" ++ "Subscription") ∧
      [subscribeErrorMsg "/aws/lambda/x"].count (subscribeErrorMsg "/aws/lambda/x") = 1 ∧
      (∀ m g2, (m, Resource.logGroup g2) ∈ wRes → strStartsWith g2 "/aws/lambda/" = true →
        canSubscribeLogGroup wAws g2 (getExpectedSubName wService wAws m) = true →
        getResource [("A", Resource.logGroup "/aws/lambda/x"),
            ("B", Resource.logGroup "/aws/lambda/y"),
            ("BSubscription", Resource.subscriptionFilter (.literal "arn") "" "B")]
          (m ++ "Subscription")
          = some (Resource.subscriptionFilter (.literal "arn") "" m))) :=
  ⟨by decide, by decide,
    @reconcile_quota_skip wService wAws (.literal "arn") wRes
      [("A", .logGroup "/aws/lambda/x"), ("B", .logGroup "/aws/lambda/y"),
        ("BSubscription", .subscriptionFilter (.literal "arn") "" "B")]
      [subscribeErrorMsg "/aws/lambda/x"] "A" "/aws/lambda/x"
      (by decide) (by decide) (by decide) (by decide) (by decide) (by decide)
      (by
        intro m hm
        simp only [wRes, List.mem_cons, List.not_mem_nil, or_false, Prod.mk.injEq] at hm
        rcases hm with ⟨h1, -⟩ | ⟨-, h2⟩
        · exact h1
        · exact absurd h2 (by decide))⟩

/-- Claim C3: after a successful run, running the reconciler again on the
resulting template against the same live state returns that template
unchanged (re-adding each subscription overwrites it with the identical
resource, so no duplicates arise), and every warning of the second pass is
either the validation-skip notice or a quota warning for a log group none of
whose live filter names matches the expected name — never a warning for a
log group whose existing filter matches the naming scheme. -/
theorem reconcile_idempotent (service : Service) (aws : AwsEnv) (fa : FunctionArn)
    {rs r1 : Resources} {w1 : List String}
    (hrun : addCloudWatchForwarderSubscriptions service aws fa (some rs) = .ok (some r1, w1)) :
    ∃ w2,
      addCloudWatchForwarderSubscriptions service aws fa (some r1) = .ok (some r1, w2) ∧
      ∀ w ∈ w2, w = skipValidationMsg ∨
        ∃ n g, (n, Resource.logGroup g) ∈ r1 ∧ strStartsWith g "/aws/lambda/" = true ∧
          (∀ f ∈ describeSubscriptionFilters aws g,
            strStartsWith f.filterName (getExpectedSubName service aws n) = false) ∧
          w = subscribeErrorMsg g := by
  rcases run_some_ok_inv hrun with ⟨e, -, hout⟩
  have hr1 : r1 = (runLoop service aws fa rs (rs, e)).1 := by
    have h2 := congrArg Prod.fst hout
    simpa using h2
  have hsub : ∀ n g, (n, Resource.logGroup g) ∈ r1 →
      strStartsWith g "/aws/lambda/" = true →
      canSubscribeLogGroup aws g (getExpectedSubName service aws n) = true →
      getResource r1 (n ++ "Subscription") = some (subscriptionFor fa n) := by
    intro n g hmem hpre hcan
    have hmem0 : (n, Resource.logGroup g) ∈ rs := by
      rw [hr1] at hmem
      exact mem_logGroup_of_runLoop service aws fa rs (rs, e) hmem
    rw [hr1]
    exact getResource_runLoop_admissible service aws fa hpre hcan rs (rs, e) hmem0
  have hwchar : ∀ w ∈ loopWarnings service aws r1, ∃ n g,
      (n, Resource.logGroup g) ∈ r1 ∧ strStartsWith g "/aws/lambda/" = true ∧
      (∀ f ∈ describeSubscriptionFilters aws g,
        strStartsWith f.filterName (getExpectedSubName service aws n) = false) ∧
      w = subscribeErrorMsg g := by
    intro w hw
    rcases List.mem_filterMap.mp hw with ⟨entry, hent, hwe⟩
    rcases entryWarning_eq_some hwe with ⟨g, hr, hp, hc, hmsg⟩
    obtain ⟨m, r⟩ := entry
    have hrr : r = Resource.logGroup g := hr
    subst hrr
    exact ⟨m, g, hent, hp, ((canSubscribeLogGroup_eq_false_iff aws g _).mp hc).1, hmsg⟩
  cases fa with
  | expression obj =>
    refine ⟨[skipValidationMsg] ++ loopWarnings service aws r1, ?_, ?_⟩
    · rw [run_expression_eq]
      have hfix := runLoop_fixpoint service aws (.expression obj) hsub r1
        (fun x hx => hx) [skipValidationMsg]
      have hsnd := runLoop_snd_eq service aws (.expression obj) r1 r1 [skipValidationMsg]
      rw [hfix, hsnd]
    · intro w hw
      rcases List.mem_append.mp hw with h1 | h1
      · exact Or.inl (List.mem_singleton.mp h1)
      · exact Or.inr (hwchar w h1)
  | literal arn =>
    have hok : aws.getFunctionOk (.literal arn) = true := by
      cases hokc : aws.getFunctionOk (.literal arn) with
      | false =>
        rw [run_literal_err_eq service aws arn rs hokc] at hrun
        cases hrun
      | true => rfl
    refine ⟨loopWarnings service aws r1, ?_, ?_⟩
    · rw [run_literal_ok_eq service aws arn r1 hok]
      have hfix := runLoop_fixpoint service aws (.literal arn) hsub r1 (fun x hx => hx) []
      have hsnd := runLoop_snd_eq service aws (.literal arn) r1 r1 []
      rw [hfix, hsnd, List.nil_append]
    · intro w hw
      exact Or.inr (hwchar w hw)

theorem reconcile_idempotent_witness :
    addCloudWatchForwarderSubscriptions wService wAws (.literal "arn") (some wRes)
      = .ok (some [("A", .logGroup "/aws/lambda/x"), ("B", .logGroup "/aws/lambda/y"),
          ("BSubscription", .subscriptionFilter (.literal "arn") "" "B")],
          [subscribeErrorMsg "/aws/lambda/x"]) ∧
    (∃ w2,
      addCloudWatchForwarderSubscriptions wService wAws (.literal "arn")
          (some [("A", Resource.logGroup "/aws/lambda/x"),
            ("B", Resource.logGroup "/aws/lambda/y"),
            ("BSubscription", Resource.subscriptionFilter (.literal "arn") "" "B")])
        = .ok (some [("A", Resource.logGroup "/aws/lambda/x"),
            ("B", Resource.logGroup "/aws/lambda/y"),
            ("BSubscription", Resource.subscriptionFilter (.literal "arn") "" "B")], w2) ∧
      ∀ w ∈ w2, w = skipValidationMsg ∨
        ∃ n g, (n, Resource.logGroup g) ∈
            [("A", Resource.logGroup "/aws/lambda/x"),
              ("B", Resource.logGroup "/aws/lambda/y"),
              ("BSubscription", Resource.subscriptionFilter (.literal "arn") "" "B")] ∧
          strStartsWith g "/aws/lambda/" = true ∧
          (∀ f ∈ describeSubscriptionFilters wAws g,
            strStartsWith f.filterName (getExpectedSubName wService wAws n) = false) ∧
          w = subscribeErrorMsg g) :=
  ⟨by decide,
    @reconcile_idempotent wService wAws (.literal "arn") wRes
      [("A", .logGroup "/aws/lambda/x"), ("B", .logGroup "/aws/lambda/y"),
        ("BSubscription", .subscriptionFilter (.literal "arn") "" "B")]
      [subscribeErrorMsg "/aws/lambda/x"] (by decide)⟩

end Forwarder
